import Mathlib

/-!
# E_Programmer: verification of the block-transfer core

Shallow embedding of the SPI-flash programmer's host-side core:
the additive checksum used by both transfer directions, the chunked
read/write block protocols with bounded retry, the WebSocket
correlation buffer and response poll loop, the JSON-RPC error-envelope
constructor, and the base64 payload codec.

Conventions: byte sequences are `List Nat` (Uint8Array contents, each
element < 256 where it matters); JS numbers appearing in validation
predicates are modelled as rationals so that the `x % 1 !== 0`
integrality test is expressible; a fallible computation returns
`Except`/`Option`; the device on the far side of the RPC channel is an
oracle function passed as a parameter (its reply, or `none` for a
transport/timeout failure that surfaces as a thrown error).
-/

namespace EProg

/-! ### Additive checksum

`writeChipBlocks` computes `blockData.reduce((a, b) => a + b, 0) % 256`;
`readChipBlocks` validates a received block by comparing its last byte
against `blockData.slice(0, -1).reduce((a, b) => a + b, 0) % 256`.
-/

/-- Write-side checksum: sum of the payload bytes modulo 256
(`const crc = blockData.reduce((a, b) => a + b, 0) % 256`). -/
def checksum (p : List Nat) : Nat :=
  (p.foldl (· + ·) 0) % 256

/-- Read-side validation from `readChipBlocks`: the last byte is the
claimed CRC (`blockData[blockData.length - 1]`, JS `undefined` on an
empty array, which compares unequal to any number), the additive sum of
the preceding bytes modulo 256 is recomputed, and the block is valid iff
they match (`crc === sum`). -/
def crcValid (b : List Nat) : Bool :=
  match b.getLast? with
  | none => false
  | some crc => crc == (b.dropLast.foldl (· + ·) 0) % 256

theorem foldl_add_eq_sum (l : List Nat) (a : Nat) :
    l.foldl (· + ·) a = a + l.sum := by
  induction l generalizing a with
  | nil => simp
  | cons x xs ih => simp [List.foldl_cons, ih, List.sum_cons]; ring

/-- C2: the checksum used by both transfer directions is deterministic and
equals the sum of the payload bytes modulo 256; for every byte sequence
`p`, appending `checksum p` as a trailing byte and then applying the
read-side validation always succeeds. -/
theorem checksum_spec_and_roundtrip (p : List Nat) :
    checksum p = p.sum % 256 ∧ crcValid (p ++ [checksum p]) = true := by
  constructor
  · simp [checksum, foldl_add_eq_sum]
  · simp [crcValid, List.getLast?_concat, List.dropLast_concat, checksum]

/-! ### Base64 payload codec (`webserver/utils.js`)

`uint8ArrayToBase64` builds a latin-1 string from the byte values and
applies `btoa`; `base64ToUint8Array` applies `atob` and reads the char
codes back.  Composed, they are standard RFC 4648 base64 over the raw
byte list, which is what is modelled here: `uint8ArrayToBase64` maps a
byte list to the base64 character list, `base64ToUint8Array` maps the
character list back to the byte list. -/

/-- The 64-character base64 alphabet used by `btoa`/`atob`. -/
def b64Alphabet : List Char :=
  ['A', 'B', 'C', 'D', 'E', 'F', 'G', 'H', 'I', 'J', 'K', 'L', 'M',
   'N', 'O', 'P', 'Q', 'R', 'S', 'T', 'U', 'V', 'W', 'X', 'Y', 'Z',
   'a', 'b', 'c', 'd', 'e', 'f', 'g', 'h', 'i', 'j', 'k', 'l', 'm',
   'n', 'o', 'p', 'q', 'r', 's', 't', 'u', 'v', 'w', 'x', 'y', 'z',
   '0', '1', '2', '3', '4', '5', '6', '7', '8', '9', '+', '/']

/-- Sextet value (0–63) to base64 character. -/
def b64Char (n : Nat) : Char := b64Alphabet.getD n '='

/-- Base64 character back to its sextet value. -/
def b64Value (c : Char) : Nat := b64Alphabet.indexOf c

/-- `uint8ArrayToBase64`: encode a byte list, three bytes to four
characters, padding the final partial group with `=`. -/
def uint8ArrayToBase64 : List Nat → List Char
  | [] => []
  | [b1] =>
      [b64Char (b1 / 4), b64Char (b1 % 4 * 16), '=', '=']
  | [b1, b2] =>
      [b64Char (b1 / 4), b64Char (b1 % 4 * 16 + b2 / 16),
       b64Char (b2 % 16 * 4), '=']
  | b1 :: b2 :: b3 :: rest =>
      b64Char (b1 / 4) :: b64Char (b1 % 4 * 16 + b2 / 16) ::
      b64Char (b2 % 16 * 4 + b3 / 64) :: b64Char (b3 % 64) ::
      uint8ArrayToBase64 rest

/-- `base64ToUint8Array`: decode four characters to three bytes, with
`=` padding marking a final group of one or two bytes. -/
def base64ToUint8Array : List Char → List Nat
  | c1 :: c2 :: c3 :: c4 :: rest =>
      if c3 = '=' then
        [b64Value c1 * 4 + b64Value c2 / 16]
      else if c4 = '=' then
        [b64Value c1 * 4 + b64Value c2 / 16,
         b64Value c2 % 16 * 16 + b64Value c3 / 4]
      else
        (b64Value c1 * 4 + b64Value c2 / 16) ::
        (b64Value c2 % 16 * 16 + b64Value c3 / 4) ::
        (b64Value c3 % 4 * 64 + b64Value c4) ::
        base64ToUint8Array rest
  | _ => []

theorem b64Value_b64Char : ∀ n < 64, b64Value (b64Char n) = n := by decide

theorem b64Char_ne_pad : ∀ n < 64, b64Char n ≠ '=' := by decide

theorem addMulDiv (k a r : Nat) (hk : 0 < k) (hr : r < k) :
    (a * k + r) / k = a := by
  rw [Nat.mul_comm a k, Nat.mul_add_div hk, Nat.div_eq_of_lt hr, Nat.add_zero]

theorem addMulMod (k a r : Nat) (hr : r < k) :
    (a * k + r) % k = r := by
  rw [Nat.mul_comm a k, Nat.mul_add_mod, Nat.mod_eq_of_lt hr]

/-- C10: decoding the base64 encoding of any byte list (elements 0–255)
returns the original list — the wire encoding of block payloads is a
lossless round trip. -/
theorem base64_roundtrip :
    ∀ a : List Nat, (∀ b ∈ a, b < 256) →
      base64ToUint8Array (uint8ArrayToBase64 a) = a
  | [], _ => by simp [uint8ArrayToBase64, base64ToUint8Array]
  | [b1], h => by
      have hb1 : b1 < 256 := h b1 (by simp)
      have h1 : b1 / 4 < 64 := by omega
      have h2 : b1 % 4 * 16 < 64 := by omega
      simp only [uint8ArrayToBase64, base64ToUint8Array, if_pos rfl, if_true,
        b64Value_b64Char _ h1, b64Value_b64Char _ h2]
      rw [Nat.mul_div_cancel _ (by norm_num : (0 : Nat) < 16)]
      simp only [List.cons.injEq, and_true]
      omega
  | [b1, b2], h => by
      have hb1 : b1 < 256 := h b1 (by simp)
      have hb2 : b2 < 256 := h b2 (by simp)
      have h1 : b1 / 4 < 64 := by omega
      have h2 : b1 % 4 * 16 + b2 / 16 < 64 := by omega
      have h3 : b2 % 16 * 4 < 64 := by omega
      simp only [uint8ArrayToBase64, base64ToUint8Array,
        if_neg (b64Char_ne_pad _ h3), if_pos rfl, if_true, if_false,
        b64Value_b64Char _ h1, b64Value_b64Char _ h2, b64Value_b64Char _ h3]
      rw [addMulDiv 16 (b1 % 4) (b2 / 16) (by norm_num) (by omega),
        addMulMod 16 (b1 % 4) (b2 / 16) (by omega),
        Nat.mul_div_cancel _ (by norm_num : (0 : Nat) < 4)]
      simp only [List.cons.injEq, and_true]
      exact ⟨by omega, by omega⟩
  | b1 :: b2 :: b3 :: rest, h => by
      have hb1 : b1 < 256 := h b1 (by simp)
      have hb2 : b2 < 256 := h b2 (by simp)
      have hb3 : b3 < 256 := h b3 (by simp)
      have h1 : b1 / 4 < 64 := by omega
      have h2 : b1 % 4 * 16 + b2 / 16 < 64 := by omega
      have h3 : b2 % 16 * 4 + b3 / 64 < 64 := by omega
      have h4 : b3 % 64 < 64 := by omega
      have ih := base64_roundtrip rest (fun b hb => h b (by simp_all))
      simp only [uint8ArrayToBase64, base64ToUint8Array,
        if_neg (b64Char_ne_pad _ h3), if_neg (b64Char_ne_pad _ h4),
        if_true, if_false,
        b64Value_b64Char _ h1, b64Value_b64Char _ h2,
        b64Value_b64Char _ h3, b64Value_b64Char _ h4, ih]
      rw [addMulDiv 16 (b1 % 4) (b2 / 16) (by norm_num) (by omega),
        addMulMod 16 (b1 % 4) (b2 / 16) (by omega),
        addMulDiv 4 (b2 % 16) (b3 / 64) (by norm_num) (by omega),
        addMulMod 4 (b2 % 16) (b3 / 64) (by omega)]
      simp only [List.cons.injEq, and_true]
      exact ⟨by omega, by omega, by omega⟩

/-- C10 witness: concrete round trip on a sample block payload. -/
theorem base64_roundtrip_witness :
    (∀ b ∈ [0, 255, 7, 128, 33], b < 256) ∧
      base64ToUint8Array (uint8ArrayToBase64 [0, 255, 7, 128, 33]) =
        [0, 255, 7, 128, 33] :=
  ⟨by decide, base64_roundtrip [0, 255, 7, 128, 33] (by decide)⟩

/-! ### Channel manager and call correlator (`ws_manager.js`)

`connectToWS` installs a message listener that deserializes every
inbound message and pushes it onto `receiveBuffer`, shifting the oldest
entry off once the length exceeds 64.  `getRPCResponse(id)` scans the
buffer for an entry whose `payload.id` equals `id`, sleeping 100 ms
between scans, and gives up 40 seconds after it started. -/

/-- The four envelope kinds produced by `jsonrpc.deserializeObject`. -/
inductive EnvType
  | notification
  | request
  | success
  | error
  deriving DecidableEq, Repr

/-- A decoded inbound message as stored in `receiveBuffer`: either an
envelope `{type, payload}` (whose payload carries an id field unless it
is a notification), or an error object returned by `deserialize` for
malformed input (`ParseError` / `InvalidRequestError`), which has no
`payload` property. -/
inductive Received
  | env (type : EnvType) (payloadId : Option Int)
  | decodeErr
  deriving DecidableEq, Repr

/-- The message listener body from `connectToWS`: push the decoded
message, then `shift()` the oldest entry when the buffer holds more
than 64 items. -/
def wsOnMessage (receiveBuffer : List Received) (response : Received) :
    List Received :=
  let pushed := receiveBuffer ++ [response]
  if pushed.length > 64 then pushed.tail else pushed

/-- C8: after every inbound message is processed, the correlation
buffer holds at most 64 entries; the decoded envelope is appended at
the end; when the bound is exceeded exactly the oldest entry is
evicted, otherwise nothing is; and any buffer reached from the empty
initial buffer by a sequence of inbound messages respects the bound. -/
theorem receiveBuffer_bounded_fifo (buf : List Received) (e : Received)
    (hbuf : buf.length ≤ 64) :
    (wsOnMessage buf e).length ≤ 64 ∧
      (wsOnMessage buf e).getLast? = some e ∧
      (buf.length < 64 → wsOnMessage buf e = buf ++ [e]) ∧
      (buf.length = 64 → wsOnMessage buf e = buf.tail ++ [e]) ∧
      (∀ msgs : List Received, (msgs.foldl wsOnMessage []).length ≤ 64) := by
  have hstep : ∀ (b : List Received) (m : Received), b.length ≤ 64 →
      (wsOnMessage b m).length ≤ 64 := by
    intro b m hb
    simp only [wsOnMessage]
    split_ifs with hlen
    · simp only [List.length_tail, List.length_append, List.length_singleton]
      omega
    · simp only [List.length_append, List.length_singleton] at *
      omega
  refine ⟨hstep buf e hbuf, ?_, ?_, ?_, ?_⟩
  · simp only [wsOnMessage]
    split_ifs with hlen
    · rcases buf with _ | ⟨x, rest⟩
      · simp at hlen
      · simp [List.getLast?_concat]
    · exact List.getLast?_concat _
  · intro hlt
    simp only [wsOnMessage]
    rw [if_neg (by simp only [List.length_append, List.length_singleton]; omega)]
  · intro heq
    simp only [wsOnMessage]
    rw [if_pos (by simp only [List.length_append, List.length_singleton]; omega)]
    rcases buf with _ | ⟨x, rest⟩
    · simp at heq
    · simp
  · intro msgs
    have inv : ∀ (l : List Received) (b : List Received), b.length ≤ 64 →
        (l.foldl wsOnMessage b).length ≤ 64 := by
      intro l
      induction l with
      | nil => intro b hb; simpa using hb
      | cons m rest ih => intro b hb; exact ih (wsOnMessage b m) (hstep b m hb)
    exact inv msgs [] (by simp)

/-- C8 witness: a full 64-entry buffer evicts its head on the next
message. -/
theorem receiveBuffer_bounded_fifo_witness :
    (List.replicate 64 Received.decodeErr).length ≤ 64 ∧
      wsOnMessage (List.replicate 64 Received.decodeErr)
          (Received.env EnvType.success (some 1)) =
        (List.replicate 64 Received.decodeErr).tail ++
          [Received.env EnvType.success (some 1)] := by
  have h := receiveBuffer_bounded_fifo (List.replicate 64 Received.decodeErr)
    (Received.env EnvType.success (some 1)) (by simp)
  exact ⟨by simp, h.2.2.2.1 (by simp)⟩

/-- The buffer-scan predicate from `getRPCResponse`:
`resp.payload && resp.payload.id === id`.  A decode-error entry has no
`payload` property (falsy), and a notification payload's `id` is
`undefined`, so neither ever matches. -/
def respMatches (id : Int) : Received → Bool
  | .env _ (some pid) => pid == id
  | .env _ none => false
  | .decodeErr => false

/-- Does the matched entry have `type === 'error'`? -/
def isErrorType : Received → Bool
  | .env .error _ => true
  | _ => false

/-- Outcome of `getRPCResponse`: return the matched envelope, throw an
RPC error carrying it, or throw a timeout error. -/
inductive RpcOutcome
  | ok (resp : Received)
  | rpcError (resp : Received)
  | timeout
  deriving DecidableEq, Repr

/-- The `getRPCResponse` poll loop.  `bufAt k` is the content of
`receiveBuffer` at the k-th scan (messages keep arriving while the
loop sleeps); `fuel` is the number of scans remaining before
`Date.now() - startTime < 40000` fails.  Each unsuccessful scan is
followed by a 100 ms sleep, so the loop performs 40000 / 100 scans. -/
def getRPCResponseGo (bufAt : Nat → List Received) (id : Int) :
    Nat → Nat → RpcOutcome
  | _, 0 => .timeout
  | poll, fuel + 1 =>
      match (bufAt poll).find? (respMatches id) with
      | some resp =>
          if isErrorType resp then .rpcError resp else .ok resp
      | none => getRPCResponseGo bufAt id (poll + 1) fuel

/-- `getRPCResponse(id)`: poll every 100 ms until the 40000 ms deadline. -/
def getRPCResponse (bufAt : Nat → List Received) (id : Int) : RpcOutcome :=
  getRPCResponseGo bufAt id 0 (40000 / 100)

theorem getRPCResponseGo_none (bufAt : Nat → List Received) (id : Int) :
    ∀ fuel poll, (∀ k, poll ≤ k → k < poll + fuel →
        (bufAt k).find? (respMatches id) = none) →
      getRPCResponseGo bufAt id poll fuel = .timeout := by
  intro fuel
  induction fuel with
  | zero => intro poll _; rfl
  | succ n ih =>
    intro poll h
    have h0 : (bufAt poll).find? (respMatches id) = none :=
      h poll (Nat.le_refl _) (by omega)
    simp only [getRPCResponseGo, h0]
    exact ih (poll + 1) (fun k hk1 hk2 => h k (by omega) (by omega))

theorem getRPCResponseGo_found (bufAt : Nat → List Received) (id : Int) :
    ∀ fuel poll k resp, poll ≤ k → k < poll + fuel →
      (∀ j, poll ≤ j → j < k → (bufAt j).find? (respMatches id) = none) →
      (bufAt k).find? (respMatches id) = some resp →
      getRPCResponseGo bufAt id poll fuel =
        (if isErrorType resp then .rpcError resp else .ok resp) := by
  intro fuel
  induction fuel with
  | zero => intro poll k resp h1 h2; omega
  | succ n ih =>
    intro poll k resp h1 h2 hnone hfound
    by_cases hpk : poll = k
    · subst hpk
      simp only [getRPCResponseGo, hfound]
    · have h0 : (bufAt poll).find? (respMatches id) = none :=
        hnone poll (Nat.le_refl _) (by omega)
      simp only [getRPCResponseGo, h0]
      exact ih (poll + 1) k resp (by omega) (by omega)
        (fun j hj1 hj2 => hnone j (by omega) hj2) hfound

/-- C4: `getRPCResponse(id)` scans the correlation buffer once per
100 ms tick for an entry whose payload id equals `id`; if no scan
within the 40-second budget (40000 / 100 = 400 scans) finds a match it
throws a timeout error; the first scan that finds a match throws an
RPC error carrying the matched envelope when its kind is `error`, and
returns the matched envelope otherwise. -/
theorem getRPCResponse_spec (bufAt : Nat → List Received) (id : Int) :
    ((∀ k, k < 40000 / 100 → (bufAt k).find? (respMatches id) = none) →
        getRPCResponse bufAt id = .timeout) ∧
      (∀ k resp, k < 40000 / 100 →
        (∀ j, j < k → (bufAt j).find? (respMatches id) = none) →
        (bufAt k).find? (respMatches id) = some resp →
        getRPCResponse bufAt id =
          (if isErrorType resp then .rpcError resp else .ok resp)) := by
  constructor
  · intro h
    exact getRPCResponseGo_none bufAt id (40000 / 100) 0
      (fun k _ hk => h k (by omega))
  · intro k resp hk hnone hfound
    exact getRPCResponseGo_found bufAt id (40000 / 100) 0 k resp
      (Nat.zero_le _) (by omega) (fun j _ hj => hnone j hj) hfound

/-- C4 witness: an id that never appears in the buffer times out, and a
success envelope found on the third scan is returned. -/
theorem getRPCResponse_spec_witness :
    getRPCResponse (fun _ => [Received.env EnvType.success (some 9)]) 5 =
        RpcOutcome.timeout ∧
      getRPCResponse
          (fun k => if k = 2 then [Received.env EnvType.success (some 5)]
            else []) 5 =
        RpcOutcome.ok (Received.env EnvType.success (some 5)) := by
  constructor
  · exact (getRPCResponse_spec (fun _ => [Received.env EnvType.success (some 9)])
      5).1 (fun k _ => by decide)
  · have h := (getRPCResponse_spec
      (fun k => if k = 2 then [Received.env EnvType.success (some 5)] else [])
      5).2 2 (Received.env EnvType.success (some 5)) (by decide)
      (fun j hj => by interval_cases j <;> decide) (by decide)
    simpa using h

/-! ### Erase controller (`dom_manager.js` erase click handler)

The handler issues `startEraseChip(...)` and then runs
`while (!getEraseDone(true, DEBUG)) { await sleep(1000); }`.
`getEraseDone` is an `async function`, and the condition does not
`await` it, so the loop tests the truthiness of a Promise object. -/

/-- A JavaScript value as seen by the `!` operator in the handler:
either a boolean, or a (pending) Promise object. -/
inductive JsValue
  | jsBool (b : Bool)
  | jsPromise (resolvesTo : Bool)
  deriving DecidableEq, Repr

/-- JS truthiness: `false` is falsy; any object, in particular any
Promise, is truthy. -/
def truthy : JsValue → Bool
  | .jsBool b => b
  | .jsPromise _ => true

/-- Invoking the `async` `getEraseDone` returns a Promise of the
device's `programmer_erase_done` result, not the result itself.
`deviceDone k` is the boolean the k-th query would resolve to. -/
def getEraseDoneCall (deviceDone : Nat → Bool) (k : Nat) : JsValue :=
  .jsPromise (deviceDone k)

/-- The handler's poll loop, counting executed iterations of the loop
body (each of which sleeps 1 s); `fuel` bounds condition evaluations,
`k` indexes the done-queries issued by successive evaluations. -/
def eraseWhileLoop (deviceDone : Nat → Bool) : Nat → Nat → Nat
  | _, 0 => 0
  | k, fuel + 1 =>
      if !(truthy (getEraseDoneCall deviceDone k)) then
        eraseWhileLoop deviceDone (k + 1) fuel + 1
      else 0

/-- C5 (code bug): the erase click handler's `while` condition negates
the Promise returned by `getEraseDone` instead of its resolved value;
a Promise is always truthy, so the loop body never runs and the
handler falls through to report completion — in particular for a
device that never reports the erase as done, no iteration occurs and
no `true` done-result was ever observed. -/
theorem eraseWhileLoop_exits_without_done (deviceDone : Nat → Bool)
    (k fuel : Nat) :
    truthy (getEraseDoneCall deviceDone k) = true ∧
      eraseWhileLoop deviceDone k fuel = 0 ∧
      eraseWhileLoop (fun _ => false) 0 400 = 0 := by
  have hgen : ∀ (d : Nat → Bool) (i f : Nat), eraseWhileLoop d i f = 0 := by
    intro d i f
    cases f <;> simp [eraseWhileLoop, getEraseDoneCall, truthy]
  exact ⟨rfl, hgen deviceDone k fuel, hgen _ 0 400⟩

/-! ### Chip catalog and block transfer protocol (`programmer.js`)

The repository carries two variants of the programmer module; the one
imported by `dom_manager.js` (v1) and a second one (v2) whose block-size
helpers are keyed by explicit `get_read_block_size` /
`get_write_block_size` method names.  The retry cores of the two read
loops are identical; the write loops differ in the parameters of the
`programmer_write_block` call, so both are modelled.

The device behind the RPC channel is modelled as oracle parameters:
the integer reply to a block-size query, a per-(block, attempt)
response for reads (`none` = a thrown transport/timeout error), and a
per-(block, attempt) acknowledgment for writes. -/

/-- A chip descriptor from `knows_chips.json`. -/
structure Chip where
  model : String
  capacity : Nat
  page_size : Nat
  deriving DecidableEq, Repr

/-- `data.parts.find(part => part.model === chipName)`. -/
def findChip (parts : List Chip) (chipName : String) : Option Chip :=
  parts.find? (fun part => part.model == chipName)

/-- RPC methods issued by the transfer protocols, with the parameters
that travel on the wire.  `chip_page_size` is an `Option` because the
v1 write loop builds its params object without that key. -/
inductive RpcMethod
  | get_read_block_size
  | get_write_block_size
  | get_receive_packet_size
  | programmer_read_block (block_id : Nat) (append_crc : Bool)
  | programmer_write_block (block_id : Nat) (chip_page_size : Option Nat)
      (data : List Nat) (crc : Nat)
  deriving DecidableEq, Repr

/-- `getNumberOfBlocksForChip(chipName, for_read)` (v2): look the chip
up in the catalog (throwing if absent), issue the read- or
write-direction block-size RPC, and return chip capacity divided by
the device-reported block size.  JS performs float division; under the
divisibility precondition of the claims this equals `Nat` division,
which is used here.  The issued method is returned alongside the
count. -/
def getNumberOfBlocksForChip (parts : List Chip) (chipName : String)
    (for_read : Bool) (blockSizeResp : Nat) :
    Except String (Nat × RpcMethod) :=
  match findChip parts chipName with
  | none => .error s!"Chip {chipName} not found."
  | some chip =>
      .ok (chip.capacity / blockSizeResp,
        if for_read then .get_read_block_size else .get_write_block_size)

/-- The per-block retry loop of `readChipBlocks`
(`while (!valid && attempts < 3)`): `deviceResp a` is the decoded
payload of attempt `a`'s `programmer_read_block` response, `none` when
the RPC or response wait threw (caught, `continue`).  With
`append_crc` the block is valid iff `crcValid`; without it the first
delivered payload is accepted unconditionally.  Returns the raw block
data of the first valid attempt, or `none` when the budget is
exhausted. -/
def readBlockAttempts (deviceResp : Nat → Option (List Nat))
    (append_crc : Bool) : Nat → Nat → Option (List Nat)
  | _, 0 => none
  | attempt, remaining + 1 =>
      match deviceResp attempt with
      | none => readBlockAttempts deviceResp append_crc (attempt + 1) remaining
      | some blockData =>
          if append_crc then
            if crcValid blockData then some blockData
            else readBlockAttempts deviceResp append_crc (attempt + 1) remaining
          else some blockData

/-- The block loop of `readChipBlocks` from block index `i`, for
`count` further blocks: yields each valid block (CRC byte stripped
when `append_crc`), and on retry exhaustion throws, producing no
further blocks.  Returns (blocks yielded, error thrown). -/
def readBlocksFrom (device : Nat → Nat → Option (List Nat))
    (append_crc : Bool) : Nat → Nat → List (List Nat) × Option String
  | _, 0 => ([], none)
  | i, count + 1 =>
      match readBlockAttempts (device i) append_crc 1 3 with
      | none => ([], some s!"Failed to read block {i} after 3 attempts.")
      | some blockData =>
          let rest := readBlocksFrom device append_crc (i + 1) count
          ((if append_crc then blockData.dropLast else blockData) :: rest.1,
            rest.2)

/-- `readChipBlocks(chipName, append_crc)` (v2): derive the block count
via `getNumberOfBlocksForChip(chipName, true)` (which may throw for an
unknown chip), then run the block loop from index 0. -/
def readChipBlocks (parts : List Chip) (chipName : String)
    (append_crc : Bool) (blockSizeResp : Nat)
    (device : Nat → Nat → Option (List Nat)) :
    Except String (List (List Nat) × Option String) :=
  (getNumberOfBlocksForChip parts chipName true blockSizeResp).map
    (fun nb => readBlocksFrom device append_crc 0 nb.1)

/-- C6: the read protocol derives its block count as the chip's catalog
capacity divided by the device-reported read block size, obtained via
the read-direction block-size RPC (`get_read_block_size`); under the
divisibility precondition the division is exact, and `readChipBlocks`
runs the block loop over exactly that count. -/
theorem readChipBlocks_block_count (parts : List Chip) (chipName : String)
    (chip : Chip) (s : Nat) (append_crc : Bool)
    (device : Nat → Nat → Option (List Nat))
    (hfind : findChip parts chipName = some chip)
    (hpos : 0 < s) (hdvd : s ∣ chip.capacity) :
    getNumberOfBlocksForChip parts chipName true s =
        .ok (chip.capacity / s, .get_read_block_size) ∧
      chip.capacity / s * s = chip.capacity ∧
      readChipBlocks parts chipName append_crc s device =
        .ok (readBlocksFrom device append_crc 0 (chip.capacity / s)) := by
  refine ⟨?_, Nat.div_mul_cancel hdvd, ?_⟩
  · simp [getNumberOfBlocksForChip, hfind]
  · simp [readChipBlocks, getNumberOfBlocksForChip, hfind, Except.map]

/-- C6 witness: a 4 MiB chip with 256-byte read blocks gives 16384
blocks. -/
theorem readChipBlocks_block_count_witness :
    getNumberOfBlocksForChip [⟨"W25Q32", 4194304, 256⟩] "W25Q32" true 256 =
        .ok (16384, .get_read_block_size) ∧
      (16384 : Nat) * 256 = 4194304 := by
  have h := readChipBlocks_block_count [⟨"W25Q32", 4194304, 256⟩] "W25Q32"
    ⟨"W25Q32", 4194304, 256⟩ 256 true (fun _ _ => none)
    (by decide) (by decide) (by decide)
  exact ⟨h.1, h.2.1⟩

/-- C1: per block the read protocol makes at most 3 attempts — the
outcome depends only on the first three device responses — where both
transport failures and checksum mismatches consume the budget; if
attempts 1–2 fail transport-wise and attempt 3 delivers a payload with
a valid additive checksum, the block is yielded (CRC byte stripped)
and the read continues with the next block; if all 3 attempts end
without a valid block, the read throws an error naming block `i` and
yields no further blocks. -/
theorem readChipBlocks_retry (device : Nat → Nat → Option (List Nat))
    (i count : Nat) (p : List Nat) :
    (∀ (r r' : Nat → Option (List Nat)) (ac : Bool),
        r 1 = r' 1 → r 2 = r' 2 → r 3 = r' 3 →
        readBlockAttempts r ac 1 3 = readBlockAttempts r' ac 1 3) ∧
      (device i 1 = none → device i 2 = none → device i 3 = some p →
        crcValid p = true →
        readBlocksFrom device true i (count + 1) =
          (p.dropLast :: (readBlocksFrom device true (i + 1) count).1,
            (readBlocksFrom device true (i + 1) count).2)) ∧
      ((∀ a, 1 ≤ a → a ≤ 3 →
          device i a = none ∨ ∃ q, device i a = some q ∧ crcValid q = false) →
        readBlocksFrom device true i (count + 1) =
          ([], some s!"Failed to read block {i} after 3 attempts.")) := by
  refine ⟨?_, ?_, ?_⟩
  · intro r r' ac h1 h2 h3
    simp only [readBlockAttempts, h1, h2, h3]
  · intro h1 h2 h3 hv
    simp only [readBlocksFrom, readBlockAttempts, h1, h2, h3, hv, if_true]
  · intro h
    have step : ∀ (a rem : Nat),
        (device i a = none ∨ ∃ q, device i a = some q ∧ crcValid q = false) →
        readBlockAttempts (device i) true a (rem + 1) =
          readBlockAttempts (device i) true (a + 1) rem := by
      rintro a rem (ha | ⟨q, hq, hc⟩)
      · simp [readBlockAttempts, ha]
      · simp [readBlockAttempts, hq, hc]
    have hattempts : readBlockAttempts (device i) true 1 3 = none := by
      rw [step 1 2 (h 1 (by omega) (by omega)),
        step 2 1 (h 2 (by omega) (by omega)),
        step 3 0 (h 3 (by omega) (by omega))]
      rfl
    simp only [readBlocksFrom, hattempts]

/-- C1 witness: block 0 succeeds on the third attempt after two
transport failures; block 1 replies with a corrupted checksum on every
attempt, so the read fails naming block 1 after yielding only
block 0. -/
theorem readChipBlocks_retry_witness :
    readBlocksFrom
        (fun i a =>
          if i = 0 then (if a = 3 then some [7, 7] else none)
          else some [1, 0])
        true 0 2 =
      ([[7]], some "Failed to read block 1 after 3 attempts.") ∧
      readBlockAttempts (fun a => if a = 1 then none else some [7, 7])
          true 1 3 =
        readBlockAttempts (fun a => if a ≤ 1 then none else some [7, 7])
          true 1 3 := by
  constructor
  · have h0 := (readChipBlocks_retry
      (fun i a =>
        if i = 0 then (if a = 3 then some [7, 7] else none)
        else some [1, 0]) 0 1 [7, 7]).2.1 rfl rfl rfl (by decide)
    have h1 := (readChipBlocks_retry
      (fun i a =>
        if i = 0 then (if a = 3 then some [7, 7] else none)
        else some [1, 0]) 1 0 []).2.2
      (fun a h1 h3 => Or.inr ⟨[1, 0], by simp, by decide⟩)
    rw [h0, h1]
    decide
  · exact (readChipBlocks_retry (fun _ _ => none) 0 0 []).1
      (fun a => if a = 1 then none else some [7, 7])
      (fun a => if a ≤ 1 then none else some [7, 7]) true
      (by decide) (by decide) (by decide)

/-- The per-block retry loop shared by both `writeChipBlocks`
variants (`while (!written && attempts < 3)`): each attempt computes
the checksum, issues `programmer_write_block` (recorded in the trace),
and succeeds iff the response wait does not throw (`deviceAck a`).
`chipPageSize` is `some page` for the v2 params object and `none` for
the v1 object, which lacks the key.  Returns (written?, RPC trace). -/
def writeBlockAttempts (chipPageSize : Option Nat) (blockId : Nat)
    (blockData : List Nat) (deviceAck : Nat → Bool) :
    Nat → Nat → Bool × List RpcMethod
  | _, 0 => (false, [])
  | attempt, remaining + 1 =>
      let call := RpcMethod.programmer_write_block blockId chipPageSize
        blockData (checksum blockData)
      if deviceAck attempt then (true, [call])
      else
        let rest := writeBlockAttempts chipPageSize blockId blockData
          deviceAck (attempt + 1) remaining
        (rest.1, call :: rest.2)

/-- The block loop of `writeChipBlocks` from `blockId`, for `count`
further blocks: slices the next `blockSize` bytes, runs the bounded
retry, yields the block index on success, and throws after 3 failed
attempts, producing no further blocks.  Returns ((indices yielded,
error thrown), RPC trace). -/
def writeBlocksFrom (chipPageSize : Option Nat) (blockSize : Nat)
    (fileData : List Nat) (deviceAck : Nat → Nat → Bool) :
    Nat → Nat → (List Nat × Option String) × List RpcMethod
  | _, 0 => (([], none), [])
  | blockId, count + 1 =>
      let blockData := (fileData.drop (blockId * blockSize)).take blockSize
      let res := writeBlockAttempts chipPageSize blockId blockData
        (deviceAck blockId) 1 3
      if res.1 then
        let rest := writeBlocksFrom chipPageSize blockSize fileData deviceAck
          (blockId + 1) count
        ((blockId :: rest.1.1, rest.1.2), res.2 ++ rest.2)
      else
        (([], some s!"Failed to write block {blockId} after 3 attempts."),
          res.2)

/-- `writeChipBlocks(chipName, fileData, verify)` (v2):
`getBlockSize(false)` issues the `get_write_block_size` RPC (whose
reply is `blockSizeResp`); the buffer length is then checked against
the block size (JS `len % 0` is `NaN`, which fails the `!== 0` test,
hence the explicit zero case); on a mismatch a length error is thrown
with no write attempted.  Otherwise the chip descriptor is looked up
for its `page_size` (`undefined` chip crashes the JS — modelled as
`none`) and the block loop runs.  JS float division of the length by
the block size equals `Nat` division because divisibility was just
checked.  Returns ((indices yielded, error thrown), RPC trace). -/
def writeChipBlocks (parts : List Chip) (chipName : String)
    (blockSizeResp : Nat) (fileData : List Nat)
    (deviceAck : Nat → Nat → Bool) :
    Option ((List Nat × Option String) × List RpcMethod) :=
  let pre := [RpcMethod.get_write_block_size]
  if blockSizeResp == 0 || fileData.length % blockSizeResp != 0 then
    some (([],
      some s!"Data length ({fileData.length}) is not a multiple of block size ({blockSizeResp})."),
      pre)
  else
    match findChip parts chipName with
    | none => none
    | some chip =>
        let res := writeBlocksFrom (some chip.page_size) blockSizeResp
          fileData deviceAck 0 (fileData.length / blockSizeResp)
        some (res.1, pre ++ res.2)

/-- `writeChipBlocks(chipName, fileData, verify)` (v1, the variant
imported by `dom_manager.js`): the chip is looked up first
(`CHIP.capacity` crashes on an unknown chip — modelled as `none`),
`getNumberOfReceivePackets` issues the `get_receive_packet_size` RPC
(reply `recvSizeResp`) and divides capacity by it, and the block size
is recovered as capacity divided by the block count (JS float
divisions; exact on the divisible capacities exercised here).  The
write call's params object carries no `chip_page_size` key. -/
def writeChipBlocks_v1 (parts : List Chip) (chipName : String)
    (recvSizeResp : Nat) (fileData : List Nat)
    (deviceAck : Nat → Nat → Bool) :
    Option ((List Nat × Option String) × List RpcMethod) :=
  match findChip parts chipName with
  | none => none
  | some chip =>
      let blockCount := chip.capacity / recvSizeResp
      let blockSize := chip.capacity / blockCount
      let pre := [RpcMethod.get_receive_packet_size]
      if blockSize == 0 || fileData.length % blockSize != 0 then
        some (([],
          some s!"Data length ({fileData.length}) is not a multiple of block size ({blockSize})."),
          pre)
      else
        let res := writeBlocksFrom none blockSize fileData deviceAck 0
          (fileData.length / blockSize)
        some (res.1, pre ++ res.2)

/-- C3 counterexample: on a 5-byte buffer with device-reported write
block size 4, the write fails with the length error and attempts no
`programmer_write_block` — but its RPC trace is not empty: the
`get_write_block_size` query was already issued before the length
check, so the write does not fail "before any RPC call is made". -/
theorem writeChipBlocks_length_cex :
    writeChipBlocks [⟨"W25Q32", 4194304, 256⟩] "W25Q32" 4 [0, 0, 0, 0, 0]
        (fun _ _ => true) =
      some (([],
        some "Data length (5) is not a multiple of block size (4)."),
        [RpcMethod.get_write_block_size]) ∧
      [RpcMethod.get_write_block_size] ≠ ([] : List RpcMethod) := by
  exact ⟨by decide, by decide⟩

/-- C3 (amended): for every buffer whose length is `blockSize * n + r`
with `0 < r < blockSize`, the write protocol fails immediately with a
length error after the write-block-size query but before any
`programmer_write_block` RPC: no block index is yielded and the trace
holds exactly the block-size query, so no partial write is
attempted. -/
theorem writeChipBlocks_length_precondition (parts : List Chip)
    (chipName : String) (blockSize : Nat) (fileData : List Nat)
    (deviceAck : Nat → Nat → Bool) (n r : Nat)
    (hlen : fileData.length = blockSize * n + r)
    (hr0 : 0 < r) (hrb : r < blockSize) :
    writeChipBlocks parts chipName blockSize fileData deviceAck =
      some (([],
        some s!"Data length ({fileData.length}) is not a multiple of block size ({blockSize})."),
        [RpcMethod.get_write_block_size]) := by
  have hmod : fileData.length % blockSize = r := by
    rw [hlen, Nat.mul_add_mod, Nat.mod_eq_of_lt hrb]
  simp only [writeChipBlocks, hmod]
  rw [if_pos]
  simp only [Bool.or_eq_true, bne_iff_ne, ne_eq]
  right
  omega

/-- C3 witness: a 6-byte buffer against block size 4 (`6 = 4·1 + 2`). -/
theorem writeChipBlocks_length_precondition_witness :
    ([9, 9, 9, 9, 9, 9] : List Nat).length = 4 * 1 + 2 ∧ 0 < 2 ∧ 2 < 4 ∧
      writeChipBlocks [] "W25Q32" 4 [9, 9, 9, 9, 9, 9] (fun _ _ => true) =
        some (([],
          some "Data length (6) is not a multiple of block size (4)."),
          [RpcMethod.get_write_block_size]) := by
  refine ⟨by decide, by decide, by decide, ?_⟩
  have h := writeChipBlocks_length_precondition [] "W25Q32" 4
    [9, 9, 9, 9, 9, 9] (fun _ _ => true) 1 2 (by decide) (by decide)
    (by decide)
  simpa using h

/-- Does a trace entry satisfy "if it is a `programmer_write_block`
call, its `chip_page_size` equals the descriptor's page size"? -/
def writeCallCarriesPageSize (page : Nat) : RpcMethod → Bool
  | .programmer_write_block _ cps _ _ => cps == some page
  | _ => true

/-- C7 counterexample: the v1 write loop (the one `dom_manager.js`
imports) issues `programmer_write_block` without any `chip_page_size`
parameter.  Concretely, writing 4 bytes to a chip of capacity 8 and
page size 256 with receive-packet size 4 succeeds, but the single
write call in the trace does not carry the descriptor's page size. -/
theorem writeChipBlocks_v1_page_size_cex :
    writeChipBlocks_v1 [⟨"W25Q32", 8, 256⟩] "W25Q32" 4 [1, 2, 3, 4]
        (fun _ _ => true) =
      some (([0], none),
        [RpcMethod.get_receive_packet_size,
         RpcMethod.programmer_write_block 0 none [1, 2, 3, 4] 10]) ∧
      ¬ ([RpcMethod.get_receive_packet_size,
          RpcMethod.programmer_write_block 0 none [1, 2, 3, 4] 10].all
          (writeCallCarriesPageSize 256) = true) := by
  exact ⟨by decide, by decide⟩

theorem writeBlockAttempts_trace (chipPageSize : Option Nat)
    (blockId : Nat) (blockData : List Nat) (deviceAck : Nat → Bool) :
    ∀ remaining attempt m,
      m ∈ (writeBlockAttempts chipPageSize blockId blockData deviceAck
        attempt remaining).2 →
      m = RpcMethod.programmer_write_block blockId chipPageSize blockData
        (checksum blockData) := by
  intro remaining
  induction remaining with
  | zero => intro attempt m hm; simp [writeBlockAttempts] at hm
  | succ n ih =>
    intro attempt m hm
    simp only [writeBlockAttempts] at hm
    split at hm
    · simpa using hm
    · rcases List.mem_cons.mp hm with h | h
      · exact h
      · exact ih (attempt + 1) m h

theorem writeBlocksFrom_trace (chipPageSize : Option Nat)
    (blockSize : Nat) (fileData : List Nat)
    (deviceAck : Nat → Nat → Bool) :
    ∀ count blockId m,
      m ∈ (writeBlocksFrom chipPageSize blockSize fileData deviceAck
        blockId count).2 →
      ∃ id, m = RpcMethod.programmer_write_block id chipPageSize
        ((fileData.drop (id * blockSize)).take blockSize)
        (checksum ((fileData.drop (id * blockSize)).take blockSize)) := by
  intro count
  induction count with
  | zero => intro blockId m hm; simp [writeBlocksFrom] at hm
  | succ n ih =>
    intro blockId m hm
    simp only [writeBlocksFrom] at hm
    split at hm
    · rcases List.mem_append.mp hm with h | h
      · exact ⟨blockId, writeBlockAttempts_trace _ _ _ _ 3 1 m h⟩
      · exact ih (blockId + 1) m h
    · exact ⟨blockId, writeBlockAttempts_trace _ _ _ _ 3 1 m hm⟩

/-- C7 (amended): in the v2 `writeChipBlocks` (the variant whose call
matches the documented `programmer_write_block(block_id,
chip_page_size, data, crc)` signature), every `programmer_write_block`
RPC carries `chip_page_size` looked up from the chip descriptor,
together with its block id, that block's payload slice, and the
additive checksum of that payload; the duplicate v1 variant omits the
page-size parameter (see the counterexample). -/
theorem writeChipBlocks_page_size (parts : List Chip) (chipName : String)
    (blockSizeResp : Nat) (fileData : List Nat)
    (deviceAck : Nat → Nat → Bool) (chip : Chip)
    (out : List Nat × Option String) (trace : List RpcMethod)
    (hfind : findChip parts chipName = some chip)
    (hrun : writeChipBlocks parts chipName blockSizeResp fileData deviceAck =
      some (out, trace)) :
    ∀ id cps data crc,
      RpcMethod.programmer_write_block id cps data crc ∈ trace →
      cps = some chip.page_size ∧ crc = checksum data ∧
        data = (fileData.drop (id * blockSizeResp)).take blockSizeResp := by
  intro id cps data crc hm
  simp only [writeChipBlocks] at hrun
  split at hrun
  · simp only [Option.some.injEq, Prod.mk.injEq] at hrun
    rw [← hrun.2] at hm
    simp at hm
  · rw [hfind] at hrun
    simp only [Option.some.injEq, Prod.mk.injEq] at hrun
    rw [← hrun.2] at hm
    rcases List.mem_append.mp hm with h | h
    · simp at h
    · obtain ⟨id', heq⟩ := writeBlocksFrom_trace (some chip.page_size)
        blockSizeResp fileData deviceAck (fileData.length / blockSizeResp)
        0 _ h
      cases heq
      exact ⟨rfl, rfl, rfl⟩

/-- C7 witness: writing 4 bytes in two blocks of 2 to a chip with page
size 256; the first write call in the trace carries `some 256`, the
checksum of its slice, and the slice itself. -/
theorem writeChipBlocks_page_size_witness :
    (some 256 = some (Chip.mk "W25Q32" 8 256).page_size ∧
        (3 : Nat) = checksum [1, 2] ∧
        ([1, 2] : List Nat) = (([1, 2, 3, 4] : List Nat).drop (0 * 2)).take 2) := by
  have h := writeChipBlocks_page_size [⟨"W25Q32", 8, 256⟩] "W25Q32" 2
    [1, 2, 3, 4] (fun _ _ => true) ⟨"W25Q32", 8, 256⟩
    ([0, 1], none)
    [RpcMethod.get_write_block_size,
     RpcMethod.programmer_write_block 0 (some 256) [1, 2] 3,
     RpcMethod.programmer_write_block 1 (some 256) [3, 4] 7]
    (by decide) (by decide) 0 (some 256) [1, 2] 3 (by decide)
  exact h

/-! ### JSON-RPC error-envelope construction (`serializer.js`)

`jsonrpc.error(id, errdata)` validates `{id, error: errdata}` with
`_validateMessageStructure('error', ...)` and returns either the list
of validation-failure messages or the serialized envelope
`{jsonrpc: '2.0', id, error}`. -/

/-- A primitive JavaScript value as inspected by the validators.
Numbers are modelled as rationals so the `x % 1 !== 0` integrality
test is expressible. -/
inductive JsPrim
  | jsNull
  | jsUndefined
  | jsStr (s : String)
  | jsNum (q : ℚ)
  | jsBool (b : Bool)
  deriving DecidableEq, Repr

/-- `typeof obj === 'string'`. -/
def isString : JsPrim → Bool
  | .jsStr _ => true
  | _ => false

/-- `typeof obj === 'number'`. -/
def isNumber : JsPrim → Bool
  | .jsNum _ => true
  | _ => false

/-- `obj === null`. -/
def isNull : JsPrim → Bool
  | .jsNull => true
  | _ => false

/-- `x % 1 === 0` on a JS number: the value has no fractional part. -/
def fracZero : JsPrim → Bool
  | .jsNum q => q.den == 1
  | _ => false

/-- The value supplied as the `error` member: either a primitive, or
an object, tagged with whether it is an `instanceof`
`jsonrpc.err.JsonRpcError` and carrying its `code` and `message`
properties. -/
inductive JsErrVal
  | prim (p : JsPrim)
  | obj (isJsonRpcErrorInstance : Bool) (code : JsPrim) (message : JsPrim)
  deriving DecidableEq, Repr

/-- `typeof obj === 'object'`: objects are, and so is `null`. -/
def isObjectVal : JsErrVal → Bool
  | .obj _ _ _ => true
  | .prim .jsNull => true
  | .prim _ => false

/-- `checkErrorId` from `_validateMessageStructure('error', ...)`:
an id passes when it is `null`, a string, or an integral number. -/
def checkErrorId (id : JsPrim) : List String :=
  if !isNull id && !isString id &&
      (!isNumber id || (isNumber id && !fracZero id)) then
    ["An ID must be provided. It must be either a string or an integer (no fractions allowed)"]
  else []

/-- `checkError`: the error value must be an object, must be an
`instanceof JsonRpcError`, its `code` is checked by the (always-false)
condition `!isNumber(code) && (isNumber(code) && code % 1 !== 0)`, and
its `message` must be a string. -/
def checkError (error : JsErrVal) : List String :=
  if !isObjectVal error then
    ["Error must be an object conforming to the JSON-RPC 2.0 error object specs"]
  else
    match error with
    | .prim _ =>
        ["Error must be an instance of JsonRpcError, or any derivatives of it"]
    | .obj inst code message =>
        if !inst then
          ["Error must be an instance of JsonRpcError, or any derivatives of it"]
        else
          (if !isNumber code && (isNumber code && !fracZero code) then
            ["Invalid error code. It MUST be an integer."]
          else []) ++
          (if !isString message then
            ["Message must exist or must be a string."]
          else [])

/-- The serialized error envelope `errorObject(id, errdata)`. -/
structure ErrorEnvelope where
  jsonrpc : String
  id : JsPrim
  error : JsErrVal
  deriving DecidableEq, Repr

/-- `jsonrpc.error(id, errdata)`: collect the validation failures of
the error message structure; return them if any, else the serialized
envelope. -/
def jsonrpcError (id : JsPrim) (errdata : JsErrVal) :
    Except (List String) ErrorEnvelope :=
  let errors := checkErrorId id ++ checkError errdata
  if errors.isEmpty then .ok ⟨"2.0", id, errdata⟩ else .error errors

/-- C9 counterexample: a plain (non-`JsonRpcError`) object carrying
integer code `1` and string message `"m"`, with a `null` id, is an
error object with an integer code and a string message, yet
construction returns the validation-failure list, not an envelope:
`checkError` additionally requires the value to be an
`instanceof JsonRpcError`. -/
theorem jsonrpcError_plain_object_cex :
    isNull .jsNull = true ∧
      isNumber (.jsNum 1) = true ∧ fracZero (.jsNum 1) = true ∧
      isString (.jsStr "m") = true ∧
      isObjectVal (.obj false (.jsNum 1) (.jsStr "m")) = true ∧
      jsonrpcError .jsNull (.obj false (.jsNum 1) (.jsStr "m")) =
        .error
          ["Error must be an instance of JsonRpcError, or any derivatives of it"] := by
  exact ⟨rfl, rfl, by decide, rfl, rfl, rfl⟩

/-- C9 (amended): constructing an error envelope succeeds — returns the
serialized envelope rather than a failure list — whenever the id is
null, a string, or an integer, and the error value is an object that is
an `instanceof JsonRpcError` carrying an integer code and a string
message. -/
theorem jsonrpcError_succeeds (id code message : JsPrim)
    (hid : isNull id = true ∨ isString id = true ∨
      (isNumber id = true ∧ fracZero id = true))
    (hcode : isNumber code = true ∧ fracZero code = true)
    (hmsg : isString message = true) :
    jsonrpcError id (.obj true code message) =
      .ok ⟨"2.0", id, .obj true code message⟩ := by
  have hidok : checkErrorId id = [] := by
    rcases hid with h | h | ⟨h1, h2⟩
    · simp [checkErrorId, h]
    · simp [checkErrorId, h]
    · simp [checkErrorId, h1, h2]
  have herrok : checkError (.obj true code message) = [] := by
    simp [checkError, isObjectVal, hmsg, hcode.1, hcode.2]
  simp [jsonrpcError, hidok, herrok]

/-- C9 witness: id `7`, a `JsonRpcError` instance with code `-32000`
and message `"boom"`. -/
theorem jsonrpcError_succeeds_witness :
    jsonrpcError (.jsNum 7) (.obj true (.jsNum (-32000)) (.jsStr "boom")) =
      .ok ⟨"2.0", .jsNum 7, .obj true (.jsNum (-32000)) (.jsStr "boom")⟩ := by
  exact jsonrpcError_succeeds (.jsNum 7) (.jsNum (-32000)) (.jsStr "boom")
    (Or.inr (Or.inr ⟨by decide, by decide⟩)) ⟨by decide, by decide⟩
    (by decide)

end EProg
